import Mathlib

/-!
# Verification of the teecp line-broadcast tool

Shallow embedding of `main.go` from jeffque/teecp: role configuration via
flag callbacks, duration-option parsing, the retry connector
(`connectSocket`), the role drivers' read loops, the remote sink closure
from `acceptNewConns`, and the broadcast registry (`teecp.Clients`).
Durations are modelled as `Int` nanoseconds (Go's `time.Duration` is an
`int64` count of nanoseconds).
-/

set_option autoImplicit false

namespace Teecp

/-- Embeds Go's `appStateDescription` struct: a role state tag
(`0` undefined, `1` server, `2` client), a description string, and the two
client durations in nanoseconds. -/
structure AppStateDescription where
  state : Int
  description : String
  waitConnection : Int
  retryInterval : Int
  deriving DecidableEq, Repr

/-- `appTypeStates.undefined`: `{0, "undefined", 0, 0}`. -/
def appTypeStates.undefined : AppStateDescription :=
  ⟨0, "undefined", 0, 0⟩

/-- `appTypeStates.server`: `{1, "server", 0, 0}`. -/
def appTypeStates.server : AppStateDescription :=
  ⟨1, "server", 0, 0⟩

/-- `appTypeStates.client`: `{2, "client", 0, time.Duration(1000000000)}`. -/
def appTypeStates.client : AppStateDescription :=
  ⟨2, "client", 0, 1000000000⟩

/-- Embeds `(s appStateDescription) isServer()`: true iff the state tag
differs from the client's state tag. -/
def AppStateDescription.isServer (s : AppStateDescription) : Bool :=
  s.state ≠ appTypeStates.client.state

/-- Embeds the closure returned by `defineState(desiredVal, currAppState)`.
The Go closure mutates `*currAppState` on success and leaves it untouched
when it returns an error; here it returns the new state paired with the
optional error. -/
def defineState (desiredVal currAppState : AppStateDescription) :
    AppStateDescription × Option String :=
  if currAppState.state ≠ appTypeStates.undefined.state then
    (currAppState,
      some ("already defined as a [" ++ currAppState.description ++
        "], cannot be redefined as a [" ++ desiredVal.description ++ "]"))
  else
    (desiredVal, none)

/-- Nanosecond value of a Go duration unit suffix, per `time.ParseDuration`
(`ns`, `us`/`µs`/`μs`, `ms`, `s`, `m`, `h`). -/
def durUnitValue : String → Option Int
  | "ns" => some 1
  | "us" => some 1000
  | "µs" => some 1000
  | "μs" => some 1000
  | "ms" => some 1000000
  | "s" => some 1000000000
  | "m" => some 60000000000
  | "h" => some 3600000000000
  | _ => none

/-- Decimal digit list to a natural number. -/
def digitsToNat (ds : List Char) : Nat :=
  ds.foldl (fun a c => a * 10 + (c.toNat - '0'.toNat)) 0

/-- One pass of Go's `time.ParseDuration` chunk loop: repeatedly parse an
integer part, an optional fractional part, and a unit suffix, summing the
contributions. The fuel bounds the recursion (each successful chunk
consumes at least the nonempty unit suffix). Fractions are computed with
exact integer arithmetic. -/
def parseDurChunks : Nat → List Char → Option Int
  | _, [] => some 0
  | 0, _ :: _ => none
  | fuel + 1, c :: cs =>
    let (intDs, r1) := (c :: cs).span Char.isDigit
    let (fracDs, r2) :=
      match r1 with
      | '.' :: rest => rest.span Char.isDigit
      | _ => (([] : List Char), r1)
    if intDs.isEmpty ∧ fracDs.isEmpty then none
    else
      let (unitCs, r3) := r2.span (fun ch => ¬ ch.isDigit ∧ ch ≠ '.')
      match durUnitValue (String.mk unitCs) with
      | none => none
      | some u =>
        let whole : Int := (digitsToNat intDs : Int) * u
        let frac : Int := (digitsToNat fracDs : Int) * u / ((10 : Int) ^ fracDs.length)
        match parseDurChunks fuel r3 with
        | none => none
        | some rest => some (whole + frac + rest)

/-- Embeds Go's `time.ParseDuration`: optional sign, the special case
`"0"`, then a nonempty sequence of number-unit chunks. Returns the duration
in nanoseconds, or `none` on a parse error. -/
def goParseDuration (s : String) : Option Int :=
  let cs := s.data
  let signed : Bool × List Char :=
    match cs with
    | '-' :: rest => (true, rest)
    | '+' :: rest => (false, rest)
    | _ => (false, cs)
  let neg := signed.1
  let body := signed.2
  if body = ['0'] then some 0
  else if body = [] then none
  else
    match parseDurChunks (body.length + 1) body with
    | none => none
    | some v => some (if neg then -v else v)

/-- Embeds `parseDurationOption`: if the string matches `^\d*$` (all ASCII
digits, including the empty string) an `"s"` suffix is appended, then the
result is handed to `time.ParseDuration`; a parse failure becomes the error
`"invalid duration"`. -/
def parseDurationOption (s : String) : Except String Int :=
  let s2 := if s.data.all Char.isDigit then s ++ "s" else s
  match goParseDuration s2 with
  | some d => Except.ok d
  | none => Except.error "invalid duration"

/-- Embeds the closure returned by `setWaitConnectionState`: `"true"` is
replaced by `"1s"`, the string is parsed as a duration option, and on
success the state's `waitConnection` field is updated (unchanged on a parse
error, which is returned). -/
def setWaitConnectionState (appState : AppStateDescription) (s : String) :
    AppStateDescription × Option String :=
  let s2 := if s = "true" then "1s" else s
  match parseDurationOption s2 with
  | Except.error e => (appState, some e)
  | Except.ok duration => ({ appState with waitConnection := duration }, none)

/-- Embeds the closure returned by `setRetryIntervalState`: `"true"` is
replaced by `"1s"`, the string is parsed as a duration option, and on
success the state's `retryInterval` field is updated (unchanged on a parse
error, which is returned). -/
def setRetryIntervalState (appState : AppStateDescription) (s : String) :
    AppStateDescription × Option String :=
  let s2 := if s = "true" then "1s" else s
  match parseDurationOption s2 with
  | Except.error e => (appState, some e)
  | Except.ok duration => ({ appState with retryInterval := duration }, none)

/-- One command-line flag occurrence handled by a `flag.BoolFunc` callback
in `main`. -/
inductive FlagArg where
  | server
  | client
  | waitConnection (s : String)
  | retryInterval (s : String)

/-- Dispatches one flag occurrence to its handler closure, as registered in
`main` via `flag.BoolFunc`. -/
def applyFlag (st : AppStateDescription) : FlagArg → AppStateDescription × Option String
  | FlagArg.server => defineState appTypeStates.server st
  | FlagArg.client => defineState appTypeStates.client st
  | FlagArg.waitConnection s => setWaitConnectionState st s
  | FlagArg.retryInterval s => setRetryIntervalState st s

/-- Processes a sequence of flag occurrences left to right, as `flag.Parse`
does, stopping at the first handler error (Go's `flag` package aborts
parsing when a callback returns an error). -/
def processFlags (st : AppStateDescription) : List FlagArg → AppStateDescription × Option String
  | [] => (st, none)
  | f :: fs =>
    match applyFlag st f with
    | (st2, none) => processFlags st2 fs
    | (st2, some e) => (st2, some e)

/-- The role driver `main` hands control to after flag parsing. -/
inductive Role where
  | server
  | listener
  deriving DecidableEq, Repr

/-- Embeds the dispatch in `main`: `if serverClientSetted.isServer()` run
`serverTeecp` else run `listenerTeecp`. -/
def mainDispatch (st : AppStateDescription) : Role :=
  if st.isServer then Role.server else Role.listener

/-- Result of one `net.Dial` attempt: a connection handle or an error. -/
inductive DialOutcome where
  | conn (handle : Nat)
  | err (msg : String)
  deriving DecidableEq, Repr

/-- Environment for the retry connector: `dial n` is the outcome of the
`n`-th dial attempt, and `elapsed n` is the value of `time.Since(start)`
(nanoseconds) observed at the stop-condition check right after attempt
`n`. -/
structure DialEnv where
  dial : Nat → DialOutcome
  elapsed : Nat → Int

/-- Embeds the loop of `connectSocket`: dial, then break when
`waitConnection == 0`, or `time.Since(start) > waitConnection`, or
`waitConnection < retryInterval`; otherwise sleep `retryInterval` and dial
again. Returns the index of the last attempt together with its outcome
(`conn, err` in the Go code); `none` means the fuel ran out before the stop
condition fired. -/
def connectSocket (env : DialEnv) (waitConnection retryInterval : Int) :
    Nat → Nat → Option (Nat × DialOutcome)
  | 0, _ => none
  | fuel + 1, n =>
    let res := env.dial n
    if waitConnection = 0 ∨ env.elapsed n > waitConnection ∨
        waitConnection < retryInterval then
      some (n, res)
    else
      connectSocket env waitConnection retryInterval fuel (n + 1)

/-- A TCP connection as seen by the remote sink closure in
`acceptNewConns`: the lines written so far, whether writes fail, and
whether the connection has been closed. -/
structure Conn where
  written : List String
  broken : Bool
  closed : Bool
  deriving DecidableEq, Repr

/-- Embeds the sink closure attached in `acceptNewConns`: write the message
to the connection and return true; on a write error close the connection
and return false. -/
def remoteSinkDeliver (conn : Conn) (msg : String) : Conn × Bool :=
  if conn.broken then ({ conn with closed := true }, false)
  else ({ conn with written := conn.written ++ [msg] }, true)

/-- One result of `reader.ReadString` in the drivers' read loops: a line, an
end-of-input (`io.EOF`), or another read error. -/
inductive ReadResult where
  | line (s : String)
  | eof
  | err (e : String)

/-- Embeds the read loop of `listenerTeecp`: lines are printed to stdout
until `io.EOF` breaks the loop (returning `nil`) or another read error
returns `fmt.Errorf("error reading stream: %w\nclosing", err)`. The result
carries the list of printed lines. -/
def listenerTeecpReadLoop : List ReadResult → Except String (List String)
  | [] => Except.ok []
  | ReadResult.line s :: rest =>
    match listenerTeecpReadLoop rest with
    | Except.ok out => Except.ok (s :: out)
    | Except.error e => Except.error e
  | ReadResult.eof :: _ => Except.ok []
  | ReadResult.err e :: _ => Except.error ("error reading stream: " ++ e ++ "\nclosing")

/-- Embeds the read loop of `serverTeecp`: each line read from stdin is
broadcast until `io.EOF` breaks the loop (returning `nil`) or another read
error returns `fmt.Errorf("error reading form stdin: %w\nclosing teecp",
err)`. The result carries the list of broadcast lines. -/
def serverTeecpReadLoop : List ReadResult → Except String (List String)
  | [] => Except.ok []
  | ReadResult.line s :: rest =>
    match serverTeecpReadLoop rest with
    | Except.ok out => Except.ok (s :: out)
    | Except.error e => Except.error e
  | ReadResult.eof :: _ => Except.ok []
  | ReadResult.err e :: _ => Except.error ("error reading form stdin: " ++ e ++ "\nclosing teecp")

/-- Exit status produced by `main` from a driver's result: a returned error
is printed and the process exits with status 1, otherwise status 0. -/
def driverExitCode (r : Except String (List String)) : Nat :=
  match r with
  | Except.ok _ => 0
  | Except.error _ => 1

/-- Modelled from the spec: a Sink of the broadcast registry
`teecp.Clients` (package `github.com/jeffque/teecp/teecp`, not present
under `src/`) — "a capability value with one operation,
`deliver(line) -> bool` (true = delivered, false = permanently failed)".
The `id` tags the sink for observation only (the spec gives sinks "no
identity beyond its position in the registry"). -/
structure Sink where
  id : Nat
  deliver : String → Bool

/-- Modelled from the spec: the broadcast registry — "an ordered collection
of live Sinks", plus a counter handing out fresh observation ids. -/
structure Clients where
  sinks : List Sink
  nextId : Nat

/-- Modelled from the spec: `attach(sink)` "appends a new Sink to the live
set". -/
def Clients.Attach (c : Clients) (f : String → Bool) : Clients :=
  ⟨c.sinks ++ [⟨c.nextId, f⟩], c.nextId + 1⟩

/-- The `(id, result)` trace of `deliver` calls one broadcast pass makes,
in registry order. -/
def broadcastCalls (sinks : List Sink) (line : String) : List (Nat × Bool) :=
  sinks.map (fun s => (s.id, s.deliver line))

/-- Modelled from the spec: `broadcast(line)` "delivers `line` to every
currently-live Sink, in registry order. For each Sink, call
`deliver(line)`; if it returns false, the Sink is removed from the live set
and receives no further deliveries." Returns the pruned registry and the
trace of calls made. -/
def Clients.Broadcast (c : Clients) (line : String) :
    Clients × List (Nat × Bool) :=
  (⟨c.sinks.filter (fun s => s.deliver line), c.nextId⟩, broadcastCalls c.sinks line)

/-- One registry operation: an `Attach` (from the acceptor loop) or a
`Broadcast` (from the hub's input loop), in the order the registry
serializes them. -/
inductive RegOp where
  | attach (f : String → Bool)
  | broadcast (line : String)

/-- Runs a serialized sequence of registry operations, collecting the call
trace of every broadcast pass. -/
def runOps (c : Clients) : List RegOp → Clients × List (List (Nat × Bool))
  | [] => (c, [])
  | RegOp.attach f :: ops => runOps (c.Attach f) ops
  | RegOp.broadcast l :: ops =>
    let step := c.Broadcast l
    let rest := runOps step.1 ops
    (rest.1, step.2 :: rest.2)

/-- The broadcast call traces of an operation sequence started from the
empty registry. -/
def runLog (ops : List RegOp) : List (List (Nat × Bool)) :=
  (runOps ⟨[], 0⟩ ops).2

/-- Registry invariant: sink ids are pairwise distinct and below the fresh
id counter. -/
def WfClients (c : Clients) : Prop :=
  (c.sinks.map Sink.id).Nodup ∧ ∀ s ∈ c.sinks, s.id < c.nextId

/-- Sink id `i` is dead: already handed out, but no live sink carries it. -/
def DeadSink (i : Nat) (c : Clients) : Prop :=
  i < c.nextId ∧ ∀ s ∈ c.sinks, s.id ≠ i

theorem wfClients_attach {c : Clients} (f : String → Bool) (h : WfClients c) :
    WfClients (c.Attach f) := by
  obtain ⟨hnd, hlt⟩ := h
  constructor
  · simp only [Clients.Attach, List.map_append, List.map_cons, List.map_nil]
    rw [List.nodup_append]
    refine ⟨hnd, List.nodup_singleton _, ?_⟩
    rw [List.disjoint_singleton]
    intro hmem
    obtain ⟨s, hs, hsid⟩ := List.mem_map.1 hmem
    exact absurd hsid (Nat.ne_of_lt (hlt s hs))
  · intro s hs
    rcases List.mem_append.1 hs with hs | hs
    · exact Nat.lt_succ_of_lt (hlt s hs)
    · simp only [List.mem_singleton] at hs
      subst hs
      exact Nat.lt_succ_self _

theorem wfClients_broadcast {c : Clients} (l : String) (h : WfClients c) :
    WfClients (c.Broadcast l).1 := by
  obtain ⟨hnd, hlt⟩ := h
  constructor
  · exact hnd.sublist ((List.filter_sublist c.sinks).map Sink.id)
  · intro s hs
    exact hlt s (List.mem_of_mem_filter hs)

theorem deadSink_attach {i : Nat} {c : Clients} (f : String → Bool)
    (h : DeadSink i c) : DeadSink i (c.Attach f) := by
  obtain ⟨hlt, hno⟩ := h
  refine ⟨Nat.lt_succ_of_lt hlt, ?_⟩
  intro s hs
  rcases List.mem_append.1 hs with hs | hs
  · exact hno s hs
  · simp only [List.mem_singleton] at hs
    subst hs
    exact (Nat.ne_of_lt hlt).symm

theorem deadSink_broadcast {i : Nat} {c : Clients} (l : String)
    (h : DeadSink i c) : DeadSink i (c.Broadcast l).1 :=
  ⟨h.1, fun s hs => h.2 s (List.mem_of_mem_filter hs)⟩

theorem deadSink_no_calls {i : Nat} {c : Clients} {l : String} {b : Bool}
    (h : DeadSink i c) : (i, b) ∉ broadcastCalls c.sinks l := by
  intro hmem
  obtain ⟨s, hs, heq⟩ := List.mem_map.1 hmem
  exact h.2 s hs (congrArg Prod.fst heq)

theorem deadSink_of_false {i : Nat} {c : Clients} {l : String}
    (hwf : WfClients c) (hmem : (i, false) ∈ broadcastCalls c.sinks l) :
    DeadSink i (c.Broadcast l).1 := by
  obtain ⟨s, hs, heq⟩ := List.mem_map.1 hmem
  have hid : s.id = i := congrArg Prod.fst heq
  have hdel : s.deliver l = false := congrArg Prod.snd heq
  refine ⟨hid ▸ hwf.2 s hs, ?_⟩
  intro s' hs' hs'id
  have hs'mem := List.mem_of_mem_filter hs'
  have hs'del := List.of_mem_filter hs'
  simp only [decide_eq_true_eq] at hs'del
  have : s' = s :=
    List.inj_on_of_nodup_map hwf.1 hs'mem hs (by rw [hs'id, hid])
  rw [this, hdel] at hs'del
  exact Bool.false_ne_true hs'del

theorem deadSink_runOps {i : Nat} {c : Clients} {ops : List RegOp}
    (h : DeadSink i c) :
    ∀ e ∈ (runOps c ops).2, ∀ b : Bool, (i, b) ∉ e := by
  induction ops generalizing c with
  | nil => intro e he; simp [runOps] at he
  | cons op ops ih =>
    cases op with
    | attach f =>
      intro e he b
      exact ih (deadSink_attach f h) e he b
    | broadcast l =>
      intro e he b
      simp only [runOps, List.mem_cons] at he
      rcases he with he | he
      · subst he
        exact deadSink_no_calls h
      · exact ih (deadSink_broadcast l h) e he b

theorem listenerLoop_eof_ok (lines : List String) :
    listenerTeecpReadLoop (lines.map ReadResult.line ++ [ReadResult.eof]) =
      Except.ok lines := by
  induction lines with
  | nil => rfl
  | cons s rest ih =>
    simp only [List.map_cons, List.cons_append, listenerTeecpReadLoop,
      List.append_eq, ih]

theorem listenerLoop_err_error (lines : List String) (e : String) :
    listenerTeecpReadLoop (lines.map ReadResult.line ++ [ReadResult.err e]) =
      Except.error ("error reading stream: " ++ e ++ "\nclosing") := by
  induction lines with
  | nil => rfl
  | cons s rest ih =>
    simp only [List.map_cons, List.cons_append, listenerTeecpReadLoop,
      List.append_eq, ih]

theorem serverLoop_eof_ok (lines : List String) :
    serverTeecpReadLoop (lines.map ReadResult.line ++ [ReadResult.eof]) =
      Except.ok lines := by
  induction lines with
  | nil => rfl
  | cons s rest ih =>
    simp only [List.map_cons, List.cons_append, serverTeecpReadLoop,
      List.append_eq, ih]

theorem serverLoop_err_error (lines : List String) (e : String) :
    serverTeecpReadLoop (lines.map ReadResult.line ++ [ReadResult.err e]) =
      Except.error ("error reading form stdin: " ++ e ++ "\nclosing teecp") := by
  induction lines with
  | nil => rfl
  | cons s rest ih =>
    simp only [List.map_cons, List.cons_append, serverTeecpReadLoop,
      List.append_eq, ih]

theorem runOps_log_false_dead {i : Nat} {c : Clients} {ops : List RegOp}
    {t t' : Nat} {b : Bool} (hwf : WfClients c)
    (hmem : (i, false) ∈ ((runOps c ops).2.getD t []))
    (hlt : t < t') : (i, b) ∉ ((runOps c ops).2.getD t' []) := by
  induction ops generalizing c t t' with
  | nil => simp [runOps] at hmem
  | cons op ops ih =>
    cases op with
    | attach f =>
      simp only [runOps] at hmem ⊢
      exact ih (wfClients_attach f hwf) hmem hlt
    | broadcast l =>
      simp only [runOps] at hmem ⊢
      cases t with
      | zero =>
        simp only [List.getD_cons_zero] at hmem
        obtain ⟨t'', rfl⟩ : ∃ t'', t' = t'' + 1 :=
          ⟨t' - 1, by omega⟩
        simp only [List.getD_cons_succ]
        have hdead : DeadSink i (c.Broadcast l).1 := deadSink_of_false hwf hmem
        intro hin
        by_cases ht : t'' < (runOps (c.Broadcast l).1 ops).2.length
        · have hm : ((runOps (c.Broadcast l).1 ops).2.getD t'' []) ∈
              (runOps (c.Broadcast l).1 ops).2 := by
            rw [List.getD_eq_getElem _ _ ht]
            exact List.getElem_mem ht
          exact deadSink_runOps hdead _ hm b hin
        · rw [List.getD_eq_default _ _ (Nat.le_of_not_lt ht)] at hin
          simp at hin
      | succ t0 =>
        obtain ⟨t'', rfl⟩ : ∃ t'', t' = t'' + 1 :=
          ⟨t' - 1, by omega⟩
        simp only [List.getD_cons_succ] at hmem ⊢
        exact ih (wfClients_broadcast l hwf) hmem (by omega)

/-- Claim C1, counterexample: with the role configuration left undefined,
`isServer` classifies the undefined state as a server and `main` proceeds
into `serverTeecp` — the program does not report an undefined-role error,
contrary to the claim. -/
theorem undefined_role_proceeds_as_server_cex :
    appTypeStates.undefined.isServer = true ∧
      mainDispatch appTypeStates.undefined = Role.server :=
  ⟨rfl, rfl⟩

/-- Claim C1, amended: if neither the server nor the client role has been
selected (state tag still undefined), the core does not reject; `isServer`
treats the undefined state as server and the program proceeds as the
server role. -/
theorem undefined_state_dispatches_to_server (st : AppStateDescription)
    (h : st.state = appTypeStates.undefined.state) :
    mainDispatch st = Role.server := by
  simp [mainDispatch, AppStateDescription.isServer, h, appTypeStates.undefined,
    appTypeStates.client]

/-- Witness for the amended C1 at the literal undefined state. -/
theorem undefined_state_dispatches_to_server_witness :
    appTypeStates.undefined.state = appTypeStates.undefined.state ∧
      mainDispatch appTypeStates.undefined = Role.server :=
  ⟨rfl, undefined_state_dispatches_to_server appTypeStates.undefined rfl⟩

/-- Claim C2: for every retry interval, a `connectSocket` call with
`waitConnection = 0` performs exactly one dial attempt — whatever the fuel,
it stops after attempt 0 and returns that attempt's outcome, success or
failure. -/
theorem connectSocket_zero_budget_single_attempt (env : DialEnv) (R : Int)
    (fuel : Nat) :
    connectSocket env 0 R (fuel + 1) 0 = some (0, env.dial 0) := by
  simp [connectSocket]

/-- Claim C3: for all durations `W < R`, a `connectSocket` call with wait
budget `W` and retry interval `R` performs exactly one dial attempt: the
stop condition checked after the first attempt fires immediately. -/
theorem connectSocket_budget_lt_interval_single_attempt (env : DialEnv)
    (W R : Int) (fuel : Nat) (h : W < R) :
    connectSocket env W R (fuel + 1) 0 = some (0, env.dial 0) := by
  simp [connectSocket, h]

/-- Witness for C3 with `W = 1`, `R = 2` and a failing dial. -/
theorem connectSocket_budget_lt_interval_single_attempt_witness :
    (1 : Int) < 2 ∧
      connectSocket ⟨fun _ => DialOutcome.err "connection refused", fun _ => 0⟩
        1 2 1 0 = some (0, DialOutcome.err "connection refused") :=
  ⟨by decide,
    connectSocket_budget_lt_interval_single_attempt _ 1 2 0 (by decide)⟩

/-- Claim C4: duration option parsing maps `"5"` to 5 seconds, `"500ms"` to
500 milliseconds, `"true"` (through the wait-connection and retry-interval
flag handlers) to 1 second, and rejects `"abc"` with a parse error. -/
theorem parseDurationOption_examples :
    parseDurationOption "5" = Except.ok 5000000000 ∧
    parseDurationOption "500ms" = Except.ok 500000000 ∧
    setWaitConnectionState appTypeStates.undefined "true" =
      ({ appTypeStates.undefined with waitConnection := 1000000000 }, none) ∧
    setRetryIntervalState appTypeStates.undefined "true" =
      ({ appTypeStates.undefined with retryInterval := 1000000000 }, none) ∧
    parseDurationOption "abc" = Except.error "invalid duration" :=
  ⟨rfl, rfl, rfl, rfl, rfl⟩

/-- Claim C5: whenever a role has already been chosen (state tag no longer
undefined), a further `--server`/`--client` handler call — including one
re-specifying the same role — returns an error and leaves the stored role
unchanged. -/
theorem defineState_rejects_redefinition (curr desired : AppStateDescription)
    (h : curr.state ≠ appTypeStates.undefined.state) :
    (defineState desired curr).1 = curr ∧
      ((defineState desired curr).2).isSome = true := by
  unfold defineState
  rw [if_pos h]
  exact ⟨rfl, rfl⟩

/-- Witness for C5: re-specifying `--server` when the server role is
already chosen. -/
theorem defineState_rejects_redefinition_witness :
    appTypeStates.server.state ≠ appTypeStates.undefined.state ∧
      ((defineState appTypeStates.server appTypeStates.server).1 =
          appTypeStates.server ∧
        ((defineState appTypeStates.server appTypeStates.server).2).isSome =
          true) :=
  ⟨by decide,
    defineState_rejects_redefinition appTypeStates.server appTypeStates.server
      (by decide)⟩

/-- Claim C6: for every line, the remote sink closure writes the line to
its connection and returns true on success; on a write error it closes the
connection (without recording the line) and returns false. -/
theorem remoteSinkDeliver_spec (w : List String) (cl : Bool) (msg : String) :
    remoteSinkDeliver ⟨w, false, cl⟩ msg = (⟨w ++ [msg], false, cl⟩, true) ∧
      remoteSinkDeliver ⟨w, true, cl⟩ msg = (⟨w, true, true⟩, false) :=
  ⟨rfl, rfl⟩

/-- Claim C7: in both role drivers' read loops, end-of-input terminates the
loop normally (the driver returns no error and `main` exits with status 0),
while any other stream read error makes the driver return the reported
error (exit status 1). -/
theorem read_loops_eof_normal_error_fatal (lines : List String) (e : String) :
    listenerTeecpReadLoop (lines.map ReadResult.line ++ [ReadResult.eof]) =
        Except.ok lines ∧
    driverExitCode
        (listenerTeecpReadLoop (lines.map ReadResult.line ++ [ReadResult.eof])) = 0 ∧
    listenerTeecpReadLoop (lines.map ReadResult.line ++ [ReadResult.err e]) =
        Except.error ("error reading stream: " ++ e ++ "\nclosing") ∧
    driverExitCode
        (listenerTeecpReadLoop (lines.map ReadResult.line ++ [ReadResult.err e])) = 1 ∧
    serverTeecpReadLoop (lines.map ReadResult.line ++ [ReadResult.eof]) =
        Except.ok lines ∧
    driverExitCode
        (serverTeecpReadLoop (lines.map ReadResult.line ++ [ReadResult.eof])) = 0 ∧
    serverTeecpReadLoop (lines.map ReadResult.line ++ [ReadResult.err e]) =
        Except.error ("error reading form stdin: " ++ e ++ "\nclosing teecp") ∧
    driverExitCode
        (serverTeecpReadLoop (lines.map ReadResult.line ++ [ReadResult.err e])) = 1 := by
  refine ⟨listenerLoop_eof_ok lines, ?_, listenerLoop_err_error lines e, ?_,
    serverLoop_eof_ok lines, ?_, serverLoop_err_error lines e, ?_⟩
  · rw [listenerLoop_eof_ok lines]
    rfl
  · rw [listenerLoop_err_error lines e]
    rfl
  · rw [serverLoop_eof_ok lines]
    rfl
  · rw [serverLoop_err_error lines e]
    rfl

/-- Claim C8: for every serialized interleaving of attach and broadcast
operations on the registry, a sink whose deliver returned false during the
broadcast logged at position `t` is never called again by any broadcast
logged at a later position `t'`. -/
theorem broadcast_never_recalls_failed_sink (ops : List RegOp)
    (i t t' : Nat) (b : Bool)
    (hmem : (i, false) ∈ (runLog ops).getD t [])
    (hlt : t < t') :
    (i, b) ∉ (runLog ops).getD t' [] := by
  have hwf : WfClients ⟨[], 0⟩ := ⟨List.nodup_nil, by intro s hs; simp at hs⟩
  simp only [runLog] at hmem ⊢
  exact runOps_log_false_dead hwf hmem hlt

/-- Witness for C8: one always-failing sink attached, then two broadcasts;
the sink fails in the first broadcast and receives no call in the
second. -/
theorem broadcast_never_recalls_failed_sink_witness :
    ((0, false) ∈
        (runLog [RegOp.attach (fun _ => false), RegOp.broadcast "a",
          RegOp.broadcast "b"]).getD 0 [] ∧
      (0 : Nat) < 1) ∧
    (0, true) ∉
        (runLog [RegOp.attach (fun _ => false), RegOp.broadcast "a",
          RegOp.broadcast "b"]).getD 1 [] :=
  ⟨⟨List.mem_singleton.2 rfl, by decide⟩,
    broadcast_never_recalls_failed_sink _ 0 0 1 true
      (List.mem_singleton.2 rfl) (by decide)⟩

/-- Claim C9: flag order matters for the client durations. Selecting a role
while the state is still undefined replaces the whole configuration value
with the role's defaults, so durations parsed by an earlier
`--wait-connection` are silently discarded, while the same flag processed
after `--client` takes effect. -/
theorem role_flag_resets_durations (st : AppStateDescription)
    (h : st.state = appTypeStates.undefined.state) :
    (applyFlag st FlagArg.client).1 = appTypeStates.client ∧
    (applyFlag st FlagArg.server).1 = appTypeStates.server ∧
    (processFlags appTypeStates.undefined
        [FlagArg.waitConnection "5", FlagArg.client]).1 = appTypeStates.client ∧
    appTypeStates.client.waitConnection = 0 ∧
    (processFlags appTypeStates.undefined
        [FlagArg.client, FlagArg.waitConnection "5"]).1 =
      { appTypeStates.client with waitConnection := 5000000000 } := by
  refine ⟨?_, ?_, rfl, rfl, rfl⟩
  · simp [applyFlag, defineState, h]
  · simp [applyFlag, defineState, h]

/-- Witness for C9 at the state produced by `--wait-connection=5`: the
parsed 5 seconds are discarded by the subsequent role flag. -/
theorem role_flag_resets_durations_witness :
    (setWaitConnectionState appTypeStates.undefined "5").1.state =
        appTypeStates.undefined.state ∧
    ((applyFlag (setWaitConnectionState appTypeStates.undefined "5").1
          FlagArg.client).1 = appTypeStates.client ∧
      (applyFlag (setWaitConnectionState appTypeStates.undefined "5").1
          FlagArg.server).1 = appTypeStates.server ∧
      (processFlags appTypeStates.undefined
          [FlagArg.waitConnection "5", FlagArg.client]).1 = appTypeStates.client ∧
      appTypeStates.client.waitConnection = 0 ∧
      (processFlags appTypeStates.undefined
          [FlagArg.client, FlagArg.waitConnection "5"]).1 =
        { appTypeStates.client with waitConnection := 5000000000 }) :=
  ⟨rfl,
    role_flag_resets_durations
      (setWaitConnectionState appTypeStates.undefined "5").1 rfl⟩

/-- Claim C10: the retry connector re-dials after a successful dial. When
the wait budget is nonzero, at least the retry interval, and not yet
exceeded by the elapsed time at the first check, the loop sleeps and dials
again even though attempt 0 already returned a connection; with the budget
exceeded at the second check, it returns attempt 1's outcome, abandoning
the connection of attempt 0. -/
theorem connectSocket_redials_after_success (env : DialEnv) (W R : Int)
    (fuel : Nat) (h0 : Nat)
    (hW : W ≠ 0) (hWR : ¬ W < R)
    (he0 : ¬ env.elapsed 0 > W) (he1 : env.elapsed 1 > W)
    (_hd0 : env.dial 0 = DialOutcome.conn h0) :
    connectSocket env W R (fuel + 2) 0 = some (1, env.dial 1) := by
  have hc1 : ¬ (W = 0 ∨ env.elapsed 0 > W ∨ W < R) := by
    intro hc
    rcases hc with hc | hc | hc
    · exact hW hc
    · exact he0 hc
    · exact hWR hc
  have hc2 : W = 0 ∨ env.elapsed 1 > W ∨ W < R := Or.inr (Or.inl he1)
  simp only [connectSocket, if_neg hc1, if_pos hc2]

/-- Witness for C10: every dial succeeds, `W = 2`, `R = 1`, elapsed time 0
after attempt 0 and 3 after attempt 1 — a second dial happens and its
result is returned, abandoning the connection obtained by attempt 0. -/
theorem connectSocket_redials_after_success_witness :
    ((2 : Int) ≠ 0 ∧ ¬ (2 : Int) < 1 ∧
      ¬ ((0 : Int) * 3 > 2) ∧ ((1 : Int) * 3 > 2) ∧
      DialOutcome.conn 0 = DialOutcome.conn 0) ∧
    connectSocket ⟨fun n => DialOutcome.conn n, fun n => (n : Int) * 3⟩
        2 1 2 0 = some (1, DialOutcome.conn 1) :=
  ⟨⟨by decide, by decide, by decide, by decide, rfl⟩,
    connectSocket_redials_after_success
      ⟨fun n => DialOutcome.conn n, fun n => (n : Int) * 3⟩ 2 1 0 0
      (by decide) (by decide) (by decide) (by decide) rfl⟩

end Teecp
